import Mathlib

/-!
Verification development for the GenAI Report Generator.

The repository's visible source is the browser dashboard (two React
implementations of the same UI: `src/frontend/frontend/src/App.jsx` and the
unnamed `src/unnamed/part_000`).  The document-to-report backend pipeline the
specification describes is not present in the repository; where a claim is
decided by that missing backend, the relevant component is modelled from the
specification's words (each such definition carries a doc comment starting
with `Modelled from the spec:`).

JavaScript strings are embedded as `List Char` (`JStr`); JavaScript's
`String.prototype.split`/`pop` pair is embedded by `jsSplit`/`jsLast`.
-/

namespace GenAI

/-- A JavaScript string, embedded as a list of characters.  The empty list
also stands for an absent (`undefined`/`null`, hence falsy) value where the
JavaScript code tests truthiness. -/
abbrev JStr := List Char

/-- JavaScript `s.startsWith(p)`: `p` is an initial segment of `s`. -/
def leadsWith : JStr → JStr → Bool
  | [], _ => true
  | _ :: _, [] => false
  | a :: as, b :: bs => a == b && leadsWith as bs

/-- `leadsWith p (p ++ t)` always holds. -/
theorem leadsWith_append_self : ∀ p t : JStr, leadsWith p (p ++ t) = true := by
  intro p
  induction p with
  | nil => intro t; rfl
  | cons a as ih =>
    intro t
    simp [leadsWith, ih t]

/-- An initial segment only uses characters of the whole string. -/
theorem leadsWith_subset : ∀ p s : JStr, leadsWith p s = true → ∀ x ∈ p, x ∈ s := by
  intro p
  induction p with
  | nil => intro s _ x hx; cases hx
  | cons a as ih =>
    intro s h x hx
    match s with
    | [] => cases h
    | b :: bs =>
      rw [leadsWith, Bool.and_eq_true, beq_iff_eq] at h
      rcases List.mem_cons.mp hx with hxa | hxs
      · exact hxa ▸ h.1 ▸ List.mem_cons_self b bs
      · exact List.mem_cons_of_mem b (ih bs h.2 x hxs)

/-- Fuel-driven core of `jsSplit`.  `fuel` is always at least `s.length + 1`
at the call sites, which makes the fuel-exhausted branch unreachable; the
fuel only makes the recursion structural. -/
def jsSplitF (sep : JStr) : Nat → JStr → List JStr
  | 0, s => [s]
  | _ + 1, [] => [[]]
  | f + 1, c :: cs =>
    if sep ≠ [] ∧ leadsWith sep (c :: cs) = true then
      [] :: jsSplitF sep f ((c :: cs).drop sep.length)
    else
      match jsSplitF sep f cs with
      | [] => [[c]]
      | h :: t => (c :: h) :: t

/-- JavaScript `s.split(sep)` for a non-empty separator `sep`: the list of
maximal fragments of `s` between non-overlapping left-to-right occurrences
of `sep`. -/
def jsSplit (sep s : JStr) : List JStr := jsSplitF sep (s.length + 1) s

/-- JavaScript `Array.prototype.pop` on a list of strings: the last element
(the lists produced by `jsSplit` are never empty, so the default is
unreachable). -/
def jsLast (l : List JStr) : JStr := l.getLastD []

example : jsSplit "/".toList "a/b".toList = ["a".toList, "b".toList] := by decide
example : jsSplit "artifacts/".toList "x/artifacts/y.png".toList
    = ["x/".toList, "y.png".toList] := by decide
example : jsSplit "/".toList "".toList = ["".toList] := by decide
example : jsSplit "b".toList "ab".toList = ["a".toList, "".toList] := by decide
example : jsSplit "a".toList "aa".toList = [[], [], []] := by decide

/-! ## Frontend image-reference rewriting

`src/frontend/frontend/src/App.jsx` lines 204–226 and
`src/unnamed/part_000` lines 250–264 each install a custom `img` component
into `ReactMarkdown`.  Both rewrite a truthy `src` that does not start with
`"http"`; they differ in which piece of the original `src` they keep. -/

/-- The `img` renderer of `App.jsx`:
`if (src && !src.startsWith('http')) { const cleanPath = src.split('artifacts/').pop(); src = ...artifacts/cleanPath }`. -/
def rewriteSrcApp (src : JStr) : JStr :=
  if src ≠ [] ∧ ¬ (leadsWith "http".toList src = true) then
    "http://localhost:8000/artifacts/".toList ++ jsLast (jsSplit "artifacts/".toList src)
  else src

/-- The `img` renderer of `part_000`:
`if (src && !src.startsWith('http')) { const filename = src.split('/').pop(); src = ...artifacts/filename }`. -/
def rewriteSrcDashboard (src : JStr) : JStr :=
  if src ≠ [] ∧ ¬ (leadsWith "http".toList src = true) then
    "http://localhost:8000/artifacts/".toList ++ jsLast (jsSplit "/".toList src)
  else src

example : rewriteSrcApp "chart_1.png".toList
    = "http://localhost:8000/artifacts/chart_1.png".toList := by decide
example : rewriteSrcApp "out/artifacts/chart_1.png".toList
    = "http://localhost:8000/artifacts/chart_1.png".toList := by decide
example : rewriteSrcApp "https://a.example/x.png".toList
    = "https://a.example/x.png".toList := by decide
example : rewriteSrcDashboard "out/artifacts/chart_1.png".toList
    = "http://localhost:8000/artifacts/chart_1.png".toList := by decide
example : rewriteSrcApp "charts/c1.png".toList
    = "http://localhost:8000/artifacts/charts/c1.png".toList := by decide
example : rewriteSrcDashboard "charts/c1.png".toList
    = "http://localhost:8000/artifacts/c1.png".toList := by decide

/-! ## Frontend `handleGenerate` state machine

Both dashboards hold React state `file`, `report`, `loading`, `error`,
`downloadUrl`.  `handleGenerate` POSTs to `/generate` and either resolves
with a JSON envelope or throws. -/

/-- The JSON envelope returned by the `/generate` endpoint:
`{status, markdown_content, pdf_download_url, error?}`. -/
structure Envelope where
  status : JStr
  markdown_content : JStr
  pdf_download_url : JStr
  errField : Option JStr
  deriving DecidableEq

/-- The dashboard's React state, as far as `handleGenerate` touches it.
`hasFile` is the truthiness of `file`; `report = none` is React's `null`. -/
structure UIState where
  hasFile : Bool
  report : Option JStr
  loading : Bool
  error : JStr
  downloadUrl : JStr
  deriving DecidableEq

/-- `handleGenerate` of `App.jsx` (lines 29–59) in the run where the POST
resolves with envelope `env`: guard on `file`; clear `error` and `report`
and set `loading`; on `status === 'success'` set the report to
`markdown_content` and the download URL to
`http://localhost:8000` + `pdf_download_url`; finally clear `loading`. -/
def handleGenerateResolvedApp (s : UIState) (env : Envelope) : UIState :=
  if s.hasFile = false then s else
    let s₁ : UIState := { s with loading := true, error := [], report := none }
    let s₂ : UIState :=
      if env.status = "success".toList then
        { s₁ with report := some env.markdown_content,
                  downloadUrl := "http://localhost:8000".toList ++ env.pdf_download_url }
      else s₁
    { s₂ with loading := false }

/-- `handleGenerate` of `App.jsx` in the run where the POST throws: the
fixed connection-failure message is set. -/
def handleGenerateThrewApp (s : UIState) : UIState :=
  if s.hasFile = false then s else
    let s₁ : UIState := { s with loading := true, error := [], report := none }
    let s₂ : UIState :=
      { s₁ with error := "Connection to AI Engine failed. Is the backend running?".toList }
    { s₂ with loading := false }

/-- `handleGenerate` of `part_000` (lines 27–51) in the run where the POST
resolves: identical to `App.jsx` except that the report is not cleared at
request start. -/
def handleGenerateResolvedDash (s : UIState) (env : Envelope) : UIState :=
  if s.hasFile = false then s else
    let s₁ : UIState := { s with loading := true, error := [] }
    let s₂ : UIState :=
      if env.status = "success".toList then
        { s₁ with report := some env.markdown_content,
                  downloadUrl := "http://localhost:8000".toList ++ env.pdf_download_url }
      else s₁
    { s₂ with loading := false }

/-- `handleGenerate` of `part_000` in the run where the POST throws. -/
def handleGenerateThrewDash (s : UIState) : UIState :=
  if s.hasFile = false then s else
    let s₁ : UIState := { s with loading := true, error := [] }
    let s₂ : UIState :=
      { s₁ with error := "Connection failed. Backend not running?".toList }
    { s₂ with loading := false }

/-! ## Helper lemmas about `jsSplit` -/

/-- If some character of the separator does not occur in `s`, the separator
cannot occur in `s`, so splitting leaves `s` whole. -/
theorem jsSplitF_of_not_mem (sep : JStr) (x : Char) (hx : x ∈ sep) :
    ∀ f s, x ∉ s → jsSplitF sep f s = [s] := by
  intro f
  induction f with
  | zero => intro s _; rfl
  | succ f ih =>
    intro s hs
    match s with
    | [] => rfl
    | c :: cs =>
      have hnp : ¬ (sep ≠ [] ∧ leadsWith sep (c :: cs) = true) := by
        rintro ⟨-, hp⟩
        exact hs (leadsWith_subset sep (c :: cs) hp x hx)
      have hcs : x ∉ cs := fun h => hs (List.mem_cons_of_mem c h)
      simp only [jsSplitF, if_neg hnp, ih cs hcs]

/-- If some character of the separator does not occur in `s`, `jsSplit`
returns the singleton `[s]`. -/
theorem jsSplit_of_not_mem (sep : JStr) (x : Char) (hx : x ∈ sep) (s : JStr)
    (hs : x ∉ s) : jsSplit sep s = [s] :=
  jsSplitF_of_not_mem sep x hx (s.length + 1) s hs

/-! ## Claims about the frontend -/

/-- C1 (counterexample): the claim quantifies over every `src` string that
does not begin with `"http"`, but an empty `src` is falsy in JavaScript and
both renderers skip the rewrite entirely, leaving a `src` that is not the
backend artifact path. -/
theorem claim1_counterexample :
    leadsWith "http".toList ([] : JStr) = false ∧
    rewriteSrcApp [] = [] ∧
    rewriteSrcDashboard [] = [] ∧
    leadsWith "http://localhost:8000/artifacts/".toList (rewriteSrcApp []) = false := by
  decide

/-- C1 (amended): every `src` beginning with `"http"` is rendered
unchanged by both dashboards, and every **non-empty** `src` not beginning
with `"http"` is rewritten to the backend artifact path
`http://localhost:8000/artifacts/{id}` by both. -/
theorem claim1_amended (src : JStr) :
    (leadsWith "http".toList src = true →
      rewriteSrcApp src = src ∧ rewriteSrcDashboard src = src) ∧
    (src ≠ [] → leadsWith "http".toList src = false →
      leadsWith "http://localhost:8000/artifacts/".toList (rewriteSrcApp src) = true ∧
      leadsWith "http://localhost:8000/artifacts/".toList (rewriteSrcDashboard src) = true) := by
  have hpre : ∀ tail : JStr,
      leadsWith "http://localhost:8000/artifacts/".toList
        ("http://localhost:8000/artifacts/".toList ++ tail) = true := fun tail =>
    leadsWith_append_self _ tail
  constructor
  · intro h
    have hng : ¬ (src ≠ [] ∧ ¬ (leadsWith "http".toList src = true)) := by
      rintro ⟨-, hn⟩; exact hn h
    constructor
    · unfold rewriteSrcApp; rw [if_neg hng]
    · unfold rewriteSrcDashboard; rw [if_neg hng]
  · intro h₁ h₂
    have hg : src ≠ [] ∧ ¬ (leadsWith "http".toList src = true) :=
      ⟨h₁, by simp only [h₂]; exact Bool.false_ne_true⟩
    constructor
    · unfold rewriteSrcApp; rw [if_pos hg]; exact hpre _
    · unfold rewriteSrcDashboard; rw [if_pos hg]; exact hpre _

/-- C1 witness: a concrete non-empty bare identifier is rewritten onto the
artifact path, and a concrete absolute URL is left unchanged. -/
theorem claim1_amended_witness :
    leadsWith "http://localhost:8000/artifacts/".toList
        (rewriteSrcApp "chart_1.png".toList) = true ∧
    rewriteSrcApp "https://a.example/x.png".toList = "https://a.example/x.png".toList := by
  exact ⟨((claim1_amended "chart_1.png".toList).2 (by decide) (by decide)).1,
         ((claim1_amended "https://a.example/x.png".toList).1 (by decide)).1⟩

/-- C2: when the POST resolves with `status = "success"`, both dashboards
display exactly `markdown_content` and set the download URL to
`"http://localhost:8000"` followed by `pdf_download_url`. -/
theorem claim2_success_envelope (s : UIState) (env : Envelope)
    (hf : s.hasFile = true) (hs : env.status = "success".toList) :
    (handleGenerateResolvedApp s env).report = some env.markdown_content ∧
    (handleGenerateResolvedApp s env).downloadUrl
      = "http://localhost:8000".toList ++ env.pdf_download_url ∧
    (handleGenerateResolvedDash s env).report = some env.markdown_content ∧
    (handleGenerateResolvedDash s env).downloadUrl
      = "http://localhost:8000".toList ++ env.pdf_download_url := by
  simp [handleGenerateResolvedApp, handleGenerateResolvedDash, hf, hs]

/-- C2 witness at a concrete state and envelope. -/
theorem claim2_success_envelope_witness :
    (handleGenerateResolvedApp ⟨true, none, false, [], []⟩
        ⟨"success".toList, "# Report".toList, "/download/r.pdf".toList, none⟩).report
      = some "# Report".toList ∧
    (handleGenerateResolvedApp ⟨true, none, false, [], []⟩
        ⟨"success".toList, "# Report".toList, "/download/r.pdf".toList, none⟩).downloadUrl
      = "http://localhost:8000".toList ++ "/download/r.pdf".toList := by
  have h := claim2_success_envelope ⟨true, none, false, [], []⟩
      ⟨"success".toList, "# Report".toList, "/download/r.pdf".toList, none⟩ rfl rfl
  exact ⟨h.1, h.2.1⟩

/-- C9 (counterexample): the two image renderers are not equivalent: on the
relative reference `charts/c1.png` (a `/`-separated path with no
`artifacts/` marker) `App.jsx` keeps `charts/c1.png` while `part_000`
keeps only `c1.png`. -/
theorem claim9_counterexample :
    rewriteSrcApp "charts/c1.png".toList ≠ rewriteSrcDashboard "charts/c1.png".toList := by
  decide

/-- C9 (amended): the two renderers agree on every `src` that begins with
`"http"` and on every `src` containing no `/` character (in particular on
bare artifact identifiers and on the empty string); they differ in general. -/
theorem claim9_amended (src : JStr)
    (h : '/' ∉ src ∨ leadsWith "http".toList src = true) :
    rewriteSrcApp src = rewriteSrcDashboard src := by
  unfold rewriteSrcApp rewriteSrcDashboard
  by_cases hg : src ≠ [] ∧ ¬ (leadsWith "http".toList src = true)
  · rcases h with hslash | hhttp
    · rw [if_pos hg, if_pos hg,
        jsSplit_of_not_mem "artifacts/".toList '/' (by decide) src hslash,
        jsSplit_of_not_mem "/".toList '/' (by decide) src hslash]
    · exact absurd hhttp hg.2
  · rw [if_neg hg, if_neg hg]

/-- C9 witness: the renderers agree on the bare identifier `c1.png`. -/
theorem claim9_amended_witness :
    rewriteSrcApp "c1.png".toList = rewriteSrcDashboard "c1.png".toList :=
  claim9_amended "c1.png".toList (Or.inl (by decide))

/-- C10 (counterexample): a non-`success` resolution does change the report
and the error state: `handleGenerate` clears both at request start
(`App.jsx`; `part_000` clears only the error), so a previously displayed
report and error message are gone afterwards. -/
theorem claim10_counterexample :
    (handleGenerateResolvedApp ⟨true, some "old report".toList, false, "previous error".toList, []⟩
        ⟨"error".toList, [], [], some "boom".toList⟩).report
      ≠ some "old report".toList ∧
    (handleGenerateResolvedApp ⟨true, some "old report".toList, false, "previous error".toList, []⟩
        ⟨"error".toList, [], [], some "boom".toList⟩).error
      ≠ "previous error".toList ∧
    (handleGenerateResolvedDash ⟨true, some "old report".toList, false, "previous error".toList, []⟩
        ⟨"error".toList, [], [], some "boom".toList⟩).error
      ≠ "previous error".toList := by
  decide

/-- C10 (amended): when the POST resolves with a status other than
`"success"`, the resolution branch makes no further state change: the
report and error keep the values set at request start (`App.jsx` clears
both, `part_000` clears only the error), the envelope's `error` field is
never read, and a non-empty error message is produced only by the run in
which the request throws. -/
theorem claim10_amended (s : UIState) (env : Envelope)
    (hf : s.hasFile = true) (hs : env.status ≠ "success".toList) :
    handleGenerateResolvedApp s env
      = { s with report := none, error := [], loading := false } ∧
    handleGenerateResolvedDash s env
      = { s with error := [], loading := false } ∧
    (∀ e, handleGenerateResolvedApp s { env with errField := e }
        = handleGenerateResolvedApp s env) ∧
    (∀ e, handleGenerateResolvedDash s { env with errField := e }
        = handleGenerateResolvedDash s env) ∧
    (handleGenerateThrewApp s).error
      = "Connection to AI Engine failed. Is the backend running?".toList ∧
    (handleGenerateThrewDash s).error
      = "Connection failed. Backend not running?".toList := by
  have hfn : ¬ (s.hasFile = false) := by simp [hf]
  refine ⟨?_, ?_, fun e => rfl, fun e => rfl, ?_, ?_⟩
  · unfold handleGenerateResolvedApp
    rw [if_neg hfn]; dsimp only; rw [if_neg hs]
  · unfold handleGenerateResolvedDash
    rw [if_neg hfn]; dsimp only; rw [if_neg hs]
  · unfold handleGenerateThrewApp
    rw [if_neg hfn]
  · unfold handleGenerateThrewDash
    rw [if_neg hfn]

/-- C10 witness at a concrete state and non-`success` envelope. -/
theorem claim10_amended_witness :
    handleGenerateResolvedApp ⟨true, some "old".toList, false, "prev".toList, []⟩
        ⟨"error".toList, [], [], some "boom".toList⟩
      = ⟨true, none, false, [], []⟩ := by
  exact (claim10_amended ⟨true, some "old".toList, false, "prev".toList, []⟩
      ⟨"error".toList, [], [], some "boom".toList⟩ rfl (by decide)).1

/-! ## Backend data model, modelled from the spec (§3)

None of the backend pipeline is present in the repository's visible source;
the following definitions are modelled from the specification. -/

/-- Modelled from the spec: the three kinds of normalized extraction unit
(`text`, `table`, `image`) of a `ContentNode` (§3); the backend Content
Extractor that produces them is missing from the repository. -/
inductive NodeType
  | text
  | table
  | image
  deriving DecidableEq

/-- Modelled from the spec: a `ContentNode` (§3) — node id, type, raw
payload (text, serialized table, or artifact id), and source provenance;
the backend that produces them is missing from the repository. -/
structure ContentNode where
  nid : Nat
  ntype : NodeType
  payload : JStr
  prov : Nat
  deriving DecidableEq

/-- Modelled from the spec: a `Chunk` (§3) — text representation, document
order position (used for retrieval tie-breaking), and provenance list; the
backend Chunker is missing from the repository. -/
structure Chunk where
  text : JStr
  pos : Nat
  prov : List Nat
  deriving DecidableEq

/-! ## Chunker, modelled from the spec (§4.2) -/

/-- Modelled from the spec: splitting one text payload into fragments of at
most `target` characters, with `overlap` characters repeated between
consecutive fragments (§4.2); the backend Chunker is missing from the
repository.  The fuel argument is `s.length + 1` at the call site and only
makes the recursion structural. -/
def splitBudget (target overlap : Nat) : Nat → JStr → List JStr
  | 0, s => [s]
  | f + 1, s =>
    if s.length ≤ target then [s]
    else s.take target :: splitBudget target overlap f (s.drop (target - overlap))

/-- Modelled from the spec: split a text node's payload on a character
budget with bounded overlap (§4.2). -/
def splitText (target overlap : Nat) (s : JStr) : List JStr :=
  splitBudget target overlap (s.length + 1) s

/-- Modelled from the spec: pack the rows of an oversized table into
fragments of at most `target` characters, repeating the header row at the
start of each fragment (§4.2); the backend Chunker is missing from the
repository. -/
def packRowsAux (target : Nat) (header : JStr) (acc : JStr) : List JStr → List JStr
  | [] => [acc]
  | r :: rs =>
    if acc.length + 1 + r.length ≤ target then
      packRowsAux target header (acc ++ '\n' :: r) rs
    else
      acc :: packRowsAux target header (header ++ '\n' :: r) rs

/-- Modelled from the spec: chunk one `ContentNode` (§4.2): text payloads
are split on the character budget with overlap; a table is kept whole
unless it exceeds the maximum chunk size, in which case it is split by row
ranges with the header repeated; image nodes carry an artifact id, not
text, and produce no chunk.  Each fragment keeps the node's provenance. -/
def chunkNode (target overlap : Nat) (n : ContentNode) : List (JStr × Nat) :=
  match n.ntype with
  | .image => []
  | .text => (splitText target overlap n.payload).map (fun t => (t, n.prov))
  | .table =>
    if n.payload.length ≤ target then [(n.payload, n.prov)]
    else
      match jsSplit "\n".toList n.payload with
      | [] => []
      | header :: body => (packRowsAux target header header body).map (fun t => (t, n.prov))

/-- Modelled from the spec: the Chunker contract
`chunk(ContentNode sequence, target size, overlap) -> Chunk sequence`
(§4.2); the backend Chunker is missing from the repository.  Chunks are
numbered in document order (provenance order of the merged nodes). -/
def chunk (target overlap : Nat) (nodes : List ContentNode) : List Chunk :=
  ((nodes.flatMap (chunkNode target overlap)).enum).map
    (fun p => ⟨p.2.1, p.1, [p.2.2]⟩)

/-- C6: chunking a single non-image `ContentNode` whose text is smaller
than the target chunk size yields exactly one `Chunk`, and that chunk's
text is the node's text (with the node's provenance and position `0`). -/
theorem claim6_small_node (target overlap : Nat) (n : ContentNode)
    (himg : n.ntype ≠ NodeType.image) (hsize : n.payload.length < target) :
    chunk target overlap [n] = [⟨n.payload, 0, [n.prov]⟩] := by
  have hle : n.payload.length ≤ target := Nat.le_of_lt hsize
  match htype : n.ntype with
  | .image => exact absurd htype himg
  | .text =>
    simp [chunk, chunkNode, htype, splitText, splitBudget, hle]
  | .table =>
    simp [chunk, chunkNode, htype, hle]

/-- C6 witness: a concrete one-node document chunks to the single chunk
holding the node's text. -/
theorem claim6_small_node_witness :
    chunk 100 10 [⟨0, NodeType.text, "hello world".toList, 1⟩]
      = [⟨"hello world".toList, 0, [1]⟩] := by
  exact claim6_small_node 100 10 ⟨0, NodeType.text, "hello world".toList, 1⟩
    (by decide) (by decide)

/-! ## Embedding Indexer, modelled from the spec (§4.3) -/

/-- Modelled from the spec: de-duplication of chunks with identical text
before indexing (§4.3), keeping the first occurrence; the backend
Embedding Indexer is missing from the repository.  `seen` is the set of
texts already kept. -/
def dedupTextAux (seen : List JStr) : List Chunk → List Chunk
  | [] => []
  | c :: cs =>
    if c.text ∈ seen then dedupTextAux seen cs
    else c :: dedupTextAux (c.text :: seen) cs

/-- Modelled from the spec: drop every chunk whose text already occurred
earlier in the sequence (§4.3). -/
def dedupByText (cs : List Chunk) : List Chunk := dedupTextAux [] cs

/-- Modelled from the spec: the ephemeral `SearchIndex` (§4.3) — each
indexed chunk paired with its embedding vector; the backend Embedding
Indexer is missing from the repository.  Embeddings are integer vectors
supplied by the external embedding backend. -/
structure SearchIndex where
  entries : List (Chunk × List Int)

/-- Modelled from the spec: the Embedding Indexer contract
`index(Chunk sequence) -> SearchIndex` (§4.3); the backend is missing from
the repository.  Duplicate texts are removed first, then the external
embedding backend `embed` computes one vector per chunk. -/
def index (embed : JStr → List Int) (cs : List Chunk) : SearchIndex :=
  ⟨(dedupByText cs).map (fun c => (c, embed c.text))⟩

/-- The texts kept by `dedupTextAux` are mutually distinct and avoid
`seen`. -/
theorem dedupTextAux_nodup : ∀ (cs : List Chunk) (seen : List JStr),
    ((dedupTextAux seen cs).map Chunk.text).Nodup ∧
    ∀ t ∈ (dedupTextAux seen cs).map Chunk.text, t ∉ seen := by
  intro cs
  induction cs with
  | nil => intro seen; exact ⟨List.nodup_nil, by simp [dedupTextAux]⟩
  | cons c cs ih =>
    intro seen
    by_cases hmem : c.text ∈ seen
    · have := ih seen
      constructor
      · simpa [dedupTextAux, hmem] using this.1
      · intro t ht
        exact this.2 t (by simpa [dedupTextAux, hmem] using ht)
    · have hrec := ih (c.text :: seen)
      have hres : dedupTextAux seen (c :: cs) = c :: dedupTextAux (c.text :: seen) cs := by
        simp [dedupTextAux, hmem]
      constructor
      · rw [hres, List.map_cons, List.nodup_cons]
        exact ⟨fun h => (hrec.2 c.text h) (List.mem_cons_self _ _), hrec.1⟩
      · intro t ht
        rw [hres, List.map_cons, List.mem_cons] at ht
        rcases ht with rfl | ht
        · exact hmem
        · exact fun hseen => (hrec.2 t ht) (List.mem_cons_of_mem _ hseen)

/-- Every input text survives de-duplication (either it was `seen` already
or it is kept). -/
theorem dedupTextAux_covers : ∀ (cs : List Chunk) (seen : List JStr),
    ∀ c ∈ cs, c.text ∈ seen ∨ c.text ∈ (dedupTextAux seen cs).map Chunk.text := by
  intro cs
  induction cs with
  | nil => intro seen c hc; cases hc
  | cons d cs ih =>
    intro seen c hc
    by_cases hmem : d.text ∈ seen
    · rcases List.mem_cons.mp hc with rfl | hc'
      · exact Or.inl hmem
      · rcases ih seen c hc' with h | h
        · exact Or.inl h
        · exact Or.inr (by simpa [dedupTextAux, hmem] using h)
    · have hres : dedupTextAux seen (d :: cs) = d :: dedupTextAux (d.text :: seen) cs := by
        simp [dedupTextAux, hmem]
      rcases List.mem_cons.mp hc with rfl | hc'
      · exact Or.inr (by rw [hres]; simp)
      · rcases ih (d.text :: seen) c hc' with h | h
        · rcases List.mem_cons.mp h with h' | h'
          · exact Or.inr (by rw [hres]; simp [h'])
          · exact Or.inl h'
        · exact Or.inr (by rw [hres]; simp [h])

/-- C8: after `index` runs, the index size equals the count of the
de-duplicated chunks, each distinct text appears at most once among the
indexed entries, and every input chunk's text is still represented. -/
theorem claim8_index_dedup (embed : JStr → List Int) (cs : List Chunk) :
    (index embed cs).entries.length = (dedupByText cs).length ∧
    ((index embed cs).entries.map (fun e => e.1.text)).Nodup ∧
    ∀ c ∈ cs, c.text ∈ (index embed cs).entries.map (fun e => e.1.text) := by
  have hmap : (index embed cs).entries.map (fun e => e.1.text)
      = (dedupByText cs).map Chunk.text := by
    simp [index, List.map_map]
  refine ⟨by simp [index], ?_, ?_⟩
  · rw [hmap]
    exact (dedupTextAux_nodup cs []).1
  · intro c hc
    rw [hmap]
    rcases dedupTextAux_covers cs [] c hc with h | h
    · cases h
    · exact h

/-- C8 witness: indexing three chunks with one duplicated text yields two
entries with distinct texts that still cover every input text. -/
theorem claim8_index_dedup_witness :
    (index (fun _ => [1]) [⟨"a".toList, 0, [0]⟩, ⟨"b".toList, 1, [1]⟩,
        ⟨"a".toList, 2, [2]⟩]).entries.length
      = (dedupByText [⟨"a".toList, 0, [0]⟩, ⟨"b".toList, 1, [1]⟩,
        ⟨"a".toList, 2, [2]⟩]).length ∧
    ∀ c ∈ [(⟨"a".toList, 0, [0]⟩ : Chunk), ⟨"b".toList, 1, [1]⟩, ⟨"a".toList, 2, [2]⟩],
      c.text ∈ (index (fun _ => [1]) [⟨"a".toList, 0, [0]⟩, ⟨"b".toList, 1, [1]⟩,
        ⟨"a".toList, 2, [2]⟩]).entries.map (fun e => e.1.text) := by
  have h := claim8_index_dedup (fun _ => [1])
    [⟨"a".toList, 0, [0]⟩, ⟨"b".toList, 1, [1]⟩, ⟨"a".toList, 2, [2]⟩]
  exact ⟨h.1, h.2.2⟩

/-! ## Retriever, modelled from the spec (§4.4) -/

/-- Modelled from the spec: the similarity between a query embedding and a
chunk embedding (§4.4, "cosine similarity (or equivalent)"), taken as the
integer dot product of the two backend-provided vectors; the backend
Retriever is missing from the repository. -/
def dot : List Int → List Int → Int
  | a :: as, b :: bs => a * b + dot as bs
  | _, _ => 0

/-- Modelled from the spec: the ranking order of two scored chunks (§4.4):
higher similarity first, equal similarities broken by original document
order (earlier position first). -/
def rankLE (a b : Chunk × Int) : Bool :=
  decide (b.2 < a.2) || (decide (a.2 = b.2) && decide (a.1.pos ≤ b.1.pos))

/-- Insert one scored chunk into an already ranked list. -/
def insertRank (x : Chunk × Int) : List (Chunk × Int) → List (Chunk × Int)
  | [] => [x]
  | y :: ys => if rankLE x y then x :: y :: ys else y :: insertRank x ys

/-- Insertion sort by `rankLE`. -/
def sortRank : List (Chunk × Int) → List (Chunk × Int)
  | [] => []
  | x :: xs => insertRank x (sortRank xs)

/-- Modelled from the spec: the Retriever contract
`retrieve(index, query text, k) -> ranked Chunk sequence, each with a
similarity score` (§4.4); the backend Retriever is missing from the
repository.  The query is embedded by the external backend `embed`, every
indexed chunk is scored, the scored chunks are ranked, and the first `k`
are returned (saturating when fewer are available). -/
def retrieve (embed : JStr → List Int) (idx : SearchIndex) (q : JStr) (k : Nat) :
    List (Chunk × Int) :=
  (sortRank (idx.entries.map (fun e => (e.1, dot (embed q) e.2)))).take k

/-- `rankLE` is total. -/
theorem rankLE_total (a b : Chunk × Int) : rankLE a b = true ∨ rankLE b a = true := by
  simp only [rankLE, Bool.or_eq_true, Bool.and_eq_true, decide_eq_true_eq]
  omega

/-- `rankLE` is transitive. -/
theorem rankLE_trans {a b c : Chunk × Int} (hab : rankLE a b = true)
    (hbc : rankLE b c = true) : rankLE a c = true := by
  simp only [rankLE, Bool.or_eq_true, Bool.and_eq_true, decide_eq_true_eq] at *
  omega

/-- `insertRank` produces a permutation of consing. -/
theorem insertRank_perm (x : Chunk × Int) :
    ∀ l : List (Chunk × Int), List.Perm (insertRank x l) (x :: l) := by
  intro l
  induction l with
  | nil => exact List.Perm.refl _
  | cons y ys ih =>
    by_cases h : rankLE x y = true
    · rw [insertRank, if_pos h]
    · rw [insertRank, if_neg h]
      exact (ih.cons y).trans (List.Perm.swap x y ys)

/-- `sortRank` permutes its input. -/
theorem sortRank_perm : ∀ l : List (Chunk × Int), List.Perm (sortRank l) l := by
  intro l
  induction l with
  | nil => exact List.Perm.refl _
  | cons x xs ih =>
    exact (insertRank_perm x (sortRank xs)).trans (ih.cons x)

/-- Inserting into a ranked list keeps it ranked. -/
theorem pairwise_insertRank (x : Chunk × Int) :
    ∀ l : List (Chunk × Int), l.Pairwise (fun a b => rankLE a b = true) →
      (insertRank x l).Pairwise (fun a b => rankLE a b = true) := by
  intro l
  induction l with
  | nil =>
    intro _
    exact List.pairwise_singleton _ _
  | cons y ys ih =>
    intro hp
    rcases List.pairwise_cons.mp hp with ⟨hy, hys⟩
    by_cases h : rankLE x y = true
    · rw [insertRank, if_pos h]
      refine List.pairwise_cons.mpr ⟨?_, hp⟩
      intro z hz
      rcases List.mem_cons.mp hz with rfl | hz'
      · exact h
      · exact rankLE_trans h (hy z hz')
    · rw [insertRank, if_neg h]
      have hyx : rankLE y x = true := (rankLE_total x y).resolve_left h
      refine List.pairwise_cons.mpr ⟨?_, ih hys⟩
      intro z hz
      rcases List.mem_cons.mp ((insertRank_perm x ys).mem_iff.mp hz) with rfl | hz'
      · exact hyx
      · exact hy z hz'

/-- `sortRank` produces a ranked list. -/
theorem pairwise_sortRank :
    ∀ l : List (Chunk × Int), (sortRank l).Pairwise (fun a b => rankLE a b = true) := by
  intro l
  induction l with
  | nil => exact List.Pairwise.nil
  | cons x xs ih => exact pairwise_insertRank x (sortRank xs) ih

/-- C5: `retrieve` never fails for `k` beyond the index size — the result
length is `min k (index size)`, and when `k` is at least the index size
every indexed chunk (with its score) is returned. -/
theorem claim5_retrieve_saturates (embed : JStr → List Int) (idx : SearchIndex)
    (q : JStr) (k : Nat) :
    (retrieve embed idx q k).length = min k idx.entries.length ∧
    (idx.entries.length ≤ k →
      ∀ e ∈ idx.entries, (e.1, dot (embed q) e.2) ∈ retrieve embed idx q k) := by
  have hperm := sortRank_perm (idx.entries.map (fun e => (e.1, dot (embed q) e.2)))
  have hlen : (sortRank (idx.entries.map (fun e => (e.1, dot (embed q) e.2)))).length
      = idx.entries.length := by
    rw [hperm.length_eq, List.length_map]
  constructor
  · rw [retrieve, List.length_take, hlen]
  · intro hk e he
    have hmem : (e.1, dot (embed q) e.2)
        ∈ sortRank (idx.entries.map (fun e => (e.1, dot (embed q) e.2))) :=
      hperm.mem_iff.mpr (List.mem_map_of_mem _ he)
    rw [retrieve, List.take_of_length_le (by rw [hlen]; exact hk)]
    exact hmem

/-- C5 witness: a two-entry index queried with `k = 5` returns both
entries. -/
theorem claim5_retrieve_saturates_witness :
    (retrieve (fun _ => [1, 0]) ⟨[(⟨"a".toList, 0, [0]⟩, [3, 1]), (⟨"b".toList, 1, [1]⟩, [7, 2])]⟩
        "q".toList 5).length
      = min 5 2 ∧
    ((⟨"a".toList, 0, [0]⟩, (3 : Int))
      ∈ retrieve (fun _ => [1, 0]) ⟨[(⟨"a".toList, 0, [0]⟩, [3, 1]), (⟨"b".toList, 1, [1]⟩, [7, 2])]⟩
        "q".toList 5) := by
  have h := claim5_retrieve_saturates (fun _ => [1, 0])
    ⟨[(⟨"a".toList, 0, [0]⟩, [3, 1]), (⟨"b".toList, 1, [1]⟩, [7, 2])]⟩ "q".toList 5
  refine ⟨h.1, ?_⟩
  have := h.2 (by decide) (⟨"a".toList, 0, [0]⟩, [3, 1]) (by simp)
  simpa using this

/-- C4: `retrieve` is deterministic — repeated calls on the same index and
query return the same ranked sequence, and whenever the index lists its
chunks in document order (strictly increasing positions), consecutive
results are ordered by strictly descending similarity with ties broken by
original document order (earlier position first). -/
theorem claim4_retrieve_deterministic (embed : JStr → List Int) (idx : SearchIndex)
    (q : JStr) (k : Nat)
    (hpos : (idx.entries.map (fun e => e.1.pos)).Pairwise (· < ·)) :
    retrieve embed idx q k = retrieve embed idx q k ∧
    (retrieve embed idx q k).Pairwise
      (fun a b => b.2 < a.2 ∨ (a.2 = b.2 ∧ a.1.pos < b.1.pos)) := by
  refine ⟨rfl, ?_⟩
  have hne : (idx.entries.map (fun e => (e.1, dot (embed q) e.2))).Pairwise
      (fun a b => a.1.pos ≠ b.1.pos) := by
    refine List.pairwise_map.mpr ?_
    have h₁ : idx.entries.Pairwise (fun a b => a.1.pos < b.1.pos) :=
      List.pairwise_map.mp hpos
    exact h₁.imp (fun h => Nat.ne_of_lt h)
  have hsym : Symmetric (fun a b : Chunk × Int => a.1.pos ≠ b.1.pos) :=
    fun a b h => Ne.symm h
  have hne' : (sortRank (idx.entries.map (fun e => (e.1, dot (embed q) e.2)))).Pairwise
      (fun a b => a.1.pos ≠ b.1.pos) :=
    ((sortRank_perm _).pairwise_iff (fun hab => hsym hab)).mpr hne
  have hsorted := pairwise_sortRank (idx.entries.map (fun e => (e.1, dot (embed q) e.2)))
  have hstrict : (sortRank (idx.entries.map (fun e => (e.1, dot (embed q) e.2)))).Pairwise
      (fun a b => b.2 < a.2 ∨ (a.2 = b.2 ∧ a.1.pos < b.1.pos)) := by
    refine (hsorted.and hne').imp ?_
    intro a b hab
    rcases hab with ⟨hr, hnab⟩
    simp only [rankLE, Bool.or_eq_true, Bool.and_eq_true, decide_eq_true_eq] at hr
    omega
  exact hstrict.sublist (List.take_sublist k _)

/-- C4 witness: a three-entry index in document order with two
equal-similarity chunks; the tied pair comes back in document order. -/
theorem claim4_retrieve_deterministic_witness :
    (retrieve (fun _ => [1])
        ⟨[(⟨"a".toList, 0, [0]⟩, [2]), (⟨"b".toList, 1, [1]⟩, [5]), (⟨"c".toList, 2, [2]⟩, [2])]⟩
        "q".toList 3).Pairwise
      (fun a b => b.2 < a.2 ∨ (a.2 = b.2 ∧ a.1.pos < b.1.pos)) := by
  exact (claim4_retrieve_deterministic (fun _ => [1])
    ⟨[(⟨"a".toList, 0, [0]⟩, [2]), (⟨"b".toList, 1, [1]⟩, [5]), (⟨"c".toList, 2, [2]⟩, [2])]⟩
    "q".toList 3 (by decide)).2

/-! ## LLM Gateway, modelled from the spec (§4.5) -/

/-- Modelled from the spec: the LLM Gateway failure kinds
`ModelUnavailable | ModelTimeout | ModelRefusal` (§4.5); the backend LLM
Gateway is missing from the repository. -/
inductive LLMErr
  | ModelUnavailable
  | ModelTimeout
  | ModelRefusal
  deriving DecidableEq

/-- Modelled from the spec: transient connection/timeout errors are the
ones retried (§4.5); a refusal is not transient. -/
def transientErr : LLMErr → Bool
  | .ModelUnavailable => true
  | .ModelTimeout => true
  | .ModelRefusal => false

/-- Modelled from the spec: the retry loop of the LLM Gateway (§4.5); the
backend is missing from the repository.  `backend a` is the outcome of
attempt number `a` of the model call (the external backend), `budget` the
number of retries still allowed.  A transient error is retried until the
attempt ceiling is exhausted, after which the failure is surfaced to the
caller; a non-transient error is surfaced at once. -/
def generateWithRetry (backend : Nat → Except LLMErr JStr) :
    Nat → Nat → Except LLMErr JStr
  | attempt, 0 => backend attempt
  | attempt, budget + 1 =>
    match backend attempt with
    | .ok t => .ok t
    | .error e =>
      if transientErr e then generateWithRetry backend (attempt + 1) budget
      else .error e

/-- Modelled from the spec: the LLM Gateway contract
`generate(prompt, options) -> text | fails ...` (§4.5) with the retry
ceiling `ceiling` counting the retries after the first attempt. -/
def generate (backend : Nat → Except LLMErr JStr) (ceiling : Nat) :
    Except LLMErr JStr :=
  generateWithRetry backend 0 ceiling

/-! ## Chart Generator and Artifact Store, modelled from the spec (§4.6, §3) -/

/-- Modelled from the spec: an `Artifact` (§3) — job-scoped unique id,
media type, byte payload (embedded as numbers), owning job id; the backend
Artifact Store is missing from the repository. -/
structure Artifact where
  aid : Nat
  mediaType : JStr
  payload : List Nat
  jobId : Nat
  deriving DecidableEq

/-- Modelled from the spec: the chart kind hint `bar/line/pie` (§4.6). -/
inductive ChartHint
  | bar
  | line
  | pie
  deriving DecidableEq

/-- Modelled from the spec: the Chart Generator failure `UnplottableData`
(§4.6). -/
inductive ChartErr
  | UnplottableData
  deriving DecidableEq

/-- Modelled from the spec: a structured numeric table extract (§4.6) —
header row plus rows of cells, each cell a string. -/
structure Table where
  headers : List JStr
  rows : List (List JStr)
  deriving DecidableEq

/-- Modelled from the spec: whether one cell holds a number (optional
leading minus, digits, at most one decimal point). -/
def numericCell (s : JStr) : Bool :=
  let core := fun (t : JStr) =>
    !t.isEmpty && t.all (fun c => c.isDigit || c == '.')
      && decide (t.count '.' ≤ 1) && t.any (fun c => c.isDigit)
  match s with
  | '-' :: rest => core rest
  | _ => core s

/-- Modelled from the spec: column `j` is numeric when the table has rows
and every row has a numeric cell in column `j` (§4.6). -/
def numericCol (t : Table) (j : Nat) : Bool :=
  !t.rows.isEmpty && t.rows.all (fun r =>
    match r[j]? with
    | some c => numericCell c
    | none => false)

/-- Modelled from the spec: the table has at least one plottable numeric
column (§4.6). -/
def hasNumericCol (t : Table) : Bool :=
  (List.range t.headers.length).any (fun j => numericCol t j)

/-- Modelled from the spec: the rendered chart image bytes for a table and
hint; the concrete rendering library is a black box (§1), so the bytes are
embedded as a simple deterministic serialization. -/
def chartBytes (t : Table) (hint : ChartHint) : List Nat :=
  (match hint with | .bar => 0 | .line => 1 | .pie => 2) ::
    t.rows.length :: (t.headers.map List.length)

/-- Modelled from the spec: the Chart Generator contract
`render_chart(table extract, chart hint) -> Artifact | fails with
UnplottableData` (§4.6); the backend is missing from the repository.  On
success one artifact is registered into the append-only store (id = next
free job-scoped id) and its id returned; with no plottable numeric column
the error is returned and the store is untouched. -/
def render_chart (jobId : Nat) (store : List Artifact) (t : Table)
    (hint : ChartHint) : Except ChartErr Nat × List Artifact :=
  if hasNumericCol t = true then
    (.ok store.length,
      store ++ [⟨store.length, "image/png".toList, chartBytes t hint, jobId⟩])
  else
    (.error .UnplottableData, store)

/-! ## Report Synthesizer and Pipeline Orchestrator, modelled from the
spec (§4.7, §4.9) -/

/-- Modelled from the spec: a `Section` of the fixed report plan (§3) —
name, analytical goal (the retrieval query), ordinal position, chart
requirement flag; the backend Report Synthesizer is missing from the
repository. -/
structure Section where
  name : JStr
  goal : JStr
  ordinal : Nat
  needsChart : Bool
  deriving DecidableEq

/-- Modelled from the spec: the degraded placeholder body a section
receives when its LLM call fails after the retry ceiling (§4.5, §7:
"a section reading 'insufficient grounded context available'"). -/
def placeholderText : JStr := "insufficient grounded context available".toList

/-- Modelled from the spec: the grounded prompt — the section's goal
followed by the retrieved chunk texts (§4.5). -/
def buildPrompt (goal : JStr) (retrieved : List (Chunk × Int)) : JStr :=
  goal ++ retrieved.flatMap (fun r => '\n' :: r.1.text)

/-- Modelled from the spec: the most relevant tabular chunk of the
retrieved ranking (§4.7) — the first retrieved chunk the external table
parser recognizes as a structured table. -/
def firstTable (parseTable : JStr → Option Table) :
    List (Chunk × Int) → Option Table
  | [] => none
  | c :: cs =>
    match parseTable c.1.text with
    | some t => some t
    | none => firstTable parseTable cs

/-- Modelled from the spec: one finished section of the report (§4.7) —
heading, generated (or degraded) body, optional chart artifact
reference. -/
structure SectionOut where
  name : JStr
  body : JStr
  chartRef : Option Nat
  deriving DecidableEq

/-- Modelled from the spec: synthesis of one section (§4.7): retrieve
top-k chunks for the section's goal, invoke the LLM Gateway on the
grounded prompt (degrading to the placeholder on failure), and, when the
section requires a chart, render the most relevant tabular chunk —
omitting the chart when none is found or the data is unplottable. -/
def synthSection (llm : JStr → Nat → Except LLMErr JStr) (ceiling : Nat)
    (embed : JStr → List Int) (parseTable : JStr → Option Table)
    (idx : SearchIndex) (topk jobId : Nat) (hint : ChartHint)
    (store : List Artifact) (sec : Section) : SectionOut × List Artifact :=
  let retrieved := retrieve embed idx sec.goal topk
  let body :=
    match generate (llm (buildPrompt sec.goal retrieved)) ceiling with
    | .ok t => t
    | .error _ => placeholderText
  if sec.needsChart = true then
    match firstTable parseTable retrieved with
    | some t =>
      match render_chart jobId store t hint with
      | (.ok aid, store') => (⟨sec.name, body, some aid⟩, store')
      | (.error _, store') => (⟨sec.name, body, none⟩, store')
    | none => (⟨sec.name, body, none⟩, store)
  else (⟨sec.name, body, none⟩, store)

/-- Modelled from the spec: the Report Synthesizer (§4.7) — every section
of the fixed plan is resolved in plan order (each to a successful result
or a degraded placeholder), threading the append-only artifact store. -/
def synthesize (llm : JStr → Nat → Except LLMErr JStr) (ceiling : Nat)
    (embed : JStr → List Int) (parseTable : JStr → Option Table)
    (idx : SearchIndex) (topk jobId : Nat) (hint : ChartHint) :
    List Artifact → List Section → List SectionOut × List Artifact
  | store, [] => ([], store)
  | store, sec :: rest =>
    let pr := synthSection llm ceiling embed parseTable idx topk jobId hint store sec
    let rest' := synthesize llm ceiling embed parseTable idx topk jobId hint pr.2 rest
    (pr.1 :: rest'.1, rest'.2)

/-- Modelled from the spec: the Job statuses driven by the Pipeline
Orchestrator (§3, §4.9). -/
inductive JobStatus
  | pending
  | extracting
  | indexing
  | synthesizing
  | rendering
  | done
  | failed
  deriving DecidableEq

/-- Modelled from the spec: the fatal error kinds that abort a Job (§7). -/
inductive FatalErr
  | UnsupportedFormat
  | ExtractionFailure
  | IndexingFailure
  | PipelineTimeout
  deriving DecidableEq

/-- Modelled from the spec: the Pipeline Orchestrator (§4.9); the backend
is missing from the repository.  `extractRes` is the Content Extractor's
outcome and `embedRes` the embedding backend's availability; a fatal
failure in either earlier stage short-circuits to `failed`, while
per-section LLM failures and per-chart failures are absorbed during
synthesis and never change the top-level Job state, which reaches
`done`. -/
def runPipeline (extractRes : Except FatalErr (List ContentNode))
    (embedRes : Except FatalErr (JStr → List Int))
    (llm : JStr → Nat → Except LLMErr JStr) (ceiling : Nat)
    (parseTable : JStr → Option Table)
    (target overlap topk jobId : Nat) (hint : ChartHint)
    (plan : List Section) : JobStatus × List SectionOut × List Artifact :=
  match extractRes with
  | .error _ => (.failed, [], [])
  | .ok nodes =>
    match embedRes with
    | .error _ => (.failed, [], [])
    | .ok embed =>
      let idx := index embed (chunk target overlap nodes)
      let pr := synthesize llm ceiling embed parseTable idx topk jobId hint [] plan
      (.done, pr.1, pr.2)

/-- A backend that always times out exhausts any retry budget and
surfaces `ModelTimeout`. -/
theorem generateWithRetry_timeout (backend : Nat → Except LLMErr JStr)
    (hb : ∀ a, backend a = .error .ModelTimeout) :
    ∀ budget attempt, generateWithRetry backend attempt budget
      = .error .ModelTimeout := by
  intro budget
  induction budget with
  | zero => intro attempt; exact hb attempt
  | succ budget ih =>
    intro attempt
    rw [generateWithRetry, hb attempt]
    exact ih (attempt + 1)

/-- When every LLM call times out, a synthesized section carries the
degraded placeholder body. -/
theorem synthSection_body_timeout (llm : JStr → Nat → Except LLMErr JStr)
    (ceiling : Nat) (embed : JStr → List Int) (parseTable : JStr → Option Table)
    (idx : SearchIndex) (topk jobId : Nat) (hint : ChartHint)
    (store : List Artifact) (sec : Section)
    (hllm : ∀ p a, llm p a = .error .ModelTimeout) :
    (synthSection llm ceiling embed parseTable idx topk jobId hint store sec).1.body
      = placeholderText := by
  have hgen : generate (llm (buildPrompt sec.goal (retrieve embed idx sec.goal topk)))
      ceiling = .error .ModelTimeout :=
    generateWithRetry_timeout _ (fun a => hllm _ a) ceiling 0
  unfold synthSection
  dsimp only
  rw [hgen]
  by_cases hc : sec.needsChart = true
  · rw [if_pos hc]
    cases hft : firstTable parseTable (retrieve embed idx sec.goal topk) with
    | none => rfl
    | some t =>
      rcases hrc : render_chart jobId store t hint with ⟨res, store'⟩
      cases res <;> simp [hrc]
  · rw [if_neg hc]

/-- When every LLM call times out, every synthesized section of the plan
carries the degraded placeholder body. -/
theorem synthesize_all_placeholder (llm : JStr → Nat → Except LLMErr JStr)
    (ceiling : Nat) (embed : JStr → List Int) (parseTable : JStr → Option Table)
    (idx : SearchIndex) (topk jobId : Nat) (hint : ChartHint)
    (hllm : ∀ p a, llm p a = .error .ModelTimeout) :
    ∀ (plan : List Section) (store : List Artifact),
      ∀ o ∈ (synthesize llm ceiling embed parseTable idx topk jobId hint store plan).1,
        o.body = placeholderText := by
  intro plan
  induction plan with
  | nil => intro store o ho; cases ho
  | cons sec rest ih =>
    intro store o ho
    rw [synthesize] at ho
    rcases List.mem_cons.mp ho with rfl | ho'
    · exact synthSection_body_timeout llm ceiling embed parseTable idx topk jobId
        hint store sec hllm
    · exact ih _ o ho'

/-- C3: if the LLM Gateway fails every call with a timeout, the Job still
completes with status `done` — not `failed` — and every section body in
the produced report is the degraded placeholder text. -/
theorem claim3_timeout_degrades (nodes : List ContentNode)
    (embed : JStr → List Int) (llm : JStr → Nat → Except LLMErr JStr)
    (ceiling : Nat) (parseTable : JStr → Option Table)
    (target overlap topk jobId : Nat) (hint : ChartHint) (plan : List Section)
    (hllm : ∀ p a, llm p a = .error .ModelTimeout) :
    (runPipeline (.ok nodes) (.ok embed) llm ceiling parseTable
        target overlap topk jobId hint plan).1 = JobStatus.done ∧
    ∀ o ∈ (runPipeline (.ok nodes) (.ok embed) llm ceiling parseTable
        target overlap topk jobId hint plan).2.1,
      o.body = placeholderText := by
  constructor
  · rfl
  · intro o ho
    exact synthesize_all_placeholder llm ceiling embed parseTable
      (index embed (chunk target overlap nodes)) topk jobId hint hllm plan [] o ho

/-- C3 witness: a concrete one-node document with an always-timing-out
gateway finishes `done` with the single section degraded. -/
theorem claim3_timeout_degrades_witness :
    (runPipeline (.ok [⟨0, NodeType.text, "hello world".toList, 0⟩])
        (.ok (fun _ => [1])) (fun _ _ => .error .ModelTimeout) 2 (fun _ => none)
        100 10 3 0 ChartHint.bar
        [⟨"Summary".toList, "overall summary".toList, 0, false⟩]).1
      = JobStatus.done ∧
    ∀ o ∈ (runPipeline (.ok [⟨0, NodeType.text, "hello world".toList, 0⟩])
        (.ok (fun _ => [1])) (fun _ _ => .error .ModelTimeout) 2 (fun _ => none)
        100 10 3 0 ChartHint.bar
        [⟨"Summary".toList, "overall summary".toList, 0, false⟩]).2.1,
      o.body = placeholderText := by
  exact claim3_timeout_degrades [⟨0, NodeType.text, "hello world".toList, 0⟩]
    (fun _ => [1]) (fun _ _ => .error .ModelTimeout) 2 (fun _ => none)
    100 10 3 0 ChartHint.bar
    [⟨"Summary".toList, "overall summary".toList, 0, false⟩]
    (fun p a => rfl)

/-- C7: for a table with zero numeric columns, `render_chart` returns
`UnplottableData` and registers no artifact; the Report Synthesizer then
omits the chart for that section (and adds nothing to the store), and a
job whose earlier stages succeeded still finishes `done` — the chart
failure never fails the job. -/
theorem claim7_unplottable_recovered (jobId : Nat) (store : List Artifact)
    (t : Table) (hint : ChartHint) (hnum : hasNumericCol t = false) :
    render_chart jobId store t hint = (.error .UnplottableData, store) ∧
    (∀ (llm : JStr → Nat → Except LLMErr JStr) (ceiling : Nat)
       (embed : JStr → List Int) (parseTable : JStr → Option Table)
       (idx : SearchIndex) (topk : Nat) (sec : Section),
       firstTable parseTable (retrieve embed idx sec.goal topk) = some t →
       (synthSection llm ceiling embed parseTable idx topk jobId hint store sec).1.chartRef
           = none ∧
       (synthSection llm ceiling embed parseTable idx topk jobId hint store sec).2
           = store) ∧
    (∀ (nodes : List ContentNode) (embed : JStr → List Int)
       (llm : JStr → Nat → Except LLMErr JStr) (ceiling : Nat)
       (parseTable : JStr → Option Table) (target overlap topk : Nat)
       (plan : List Section),
       (runPipeline (.ok nodes) (.ok embed) llm ceiling parseTable
           target overlap topk jobId hint plan).1 = JobStatus.done) := by
  have hrc : render_chart jobId store t hint = (.error .UnplottableData, store) := by
    unfold render_chart
    rw [if_neg (by simp [hnum])]
  refine ⟨hrc, ?_, fun nodes embed llm ceiling parseTable target overlap topk plan => rfl⟩
  intro llm ceiling embed parseTable idx topk sec hft
  unfold synthSection
  dsimp only
  by_cases hc : sec.needsChart = true
  · rw [if_pos hc, hft]
    dsimp only
    rw [hrc]
    exact ⟨rfl, rfl⟩
  · rw [if_neg hc]
    exact ⟨rfl, rfl⟩

/-- C7 witness: a concrete all-text table is unplottable, the section's
chart is omitted and the store stays empty, and the job report stays
`done`. -/
theorem claim7_unplottable_recovered_witness :
    render_chart 0 [] ⟨["name".toList], [["alice".toList]]⟩ ChartHint.bar
      = (.error .UnplottableData, []) ∧
    (synthSection (fun _ _ => .ok "body".toList) 1 (fun _ => [1])
        (fun _ => some ⟨["name".toList], [["alice".toList]]⟩)
        ⟨[(⟨"tbl".toList, 0, [0]⟩, [1])]⟩ 1 0 ChartHint.bar []
        ⟨"Metrics".toList, "metrics".toList, 0, true⟩).1.chartRef = none := by
  have h := claim7_unplottable_recovered 0 [] ⟨["name".toList], [["alice".toList]]⟩
    ChartHint.bar (by decide)
  refine ⟨h.1, ?_⟩
  exact (h.2.1 (fun _ _ => .ok "body".toList) 1 (fun _ => [1])
    (fun _ => some ⟨["name".toList], [["alice".toList]]⟩)
    ⟨[(⟨"tbl".toList, 0, [0]⟩, [1])]⟩ 1
    ⟨"Metrics".toList, "metrics".toList, 0, true⟩ (by decide)).1

end GenAI
